import Mathlib

/-!
A verification development for the go-url-shortener system: a shallow
embedding of the URL-shortener, redirect, and analytics services, with
theorems checking the natural-language specification against the code.

Conventions of the embedding:
* Wall-clock instants (Go `time.Time`) are modelled as integer Unix
  seconds (`Int`); `t1.After(t2)` is `t2 < t1` and `t1.Before(t2)` is
  `t1 < t2`.  Durations are integer seconds (24h = 86400).
* Nullable columns / pointer fields are `Option`.
* Byte strings are lists of natural numbers below 256 (or `Char` lists
  for ASCII payloads).
* Randomness (`crypto/rand.Read`) is passed in explicitly as a list of
  byte draws, one per minting attempt.
* Fallible Go functions returning `(T, error)` become `Except` values.
-/

set_option maxRecDepth 100000

deriving instance DecidableEq for Except

namespace UrlShort

/-- Domain errors of the shortener service (`domain/models.go`) together
with the store-level failures the services distinguish. -/
inductive DomainErr where
  | invalidURL
  | urlNotFound
  | urlExpired
  | unauthorized
  | customAliasUsed
  | invalidShortCode
  | saveFailed
  | exhaustedCodeSpace
deriving Repr, DecidableEq

/-- The canonical URL mapping record.  The database row
(`utils/database` `URLMapping`) and the domain entity
(`url-shortener-svc/domain/models.go` `URL`) carry the same fields
(`dbToDomainURL` copies them across); both are modelled by this one
structure.  `metadata` is kept as its serialized JSON string. -/
structure URLMapping where
  id : Int := 0
  shortCode : String
  longURL : String
  userID : String := ""
  createdAt : Int := 0
  expiresAt : Option Int := none
  clickCount : Int := 0
  lastAccessed : Option Int := none
  isActive : Bool := true
  metadata : String := "\x7b\x7d"
deriving Repr, DecidableEq

/-- `URL.IsExpired` (models.go): expired iff `expires_at` is set and
`time.Now().After(expires_at)`, i.e. strictly `expires_at < now`. -/
def isExpired (now : Int) (u : URLMapping) : Bool :=
  match u.expiresAt with
  | none => false
  | some e => decide (e < now)

/-- `URL.CanAccess` (models.go): exact string equality of owner ids. -/
def canAccess (u : URLMapping) (userID : String) : Bool :=
  u.userID == userID

/-- `URL.IsValidForRedirect` (models.go): inactive mappings are
`ErrURLNotFound`, expired ones `ErrURLExpired`, otherwise valid. -/
def isValidForRedirect (now : Int) (u : URLMapping) : Option DomainErr :=
  if !u.isActive then some .urlNotFound
  else if isExpired now u then some .urlExpired
  else none

/-- `URLService.validateShortCode` (service.go): length 3 to 10 and all
characters alphanumeric (regexp `^[a-zA-Z0-9]+$`).  The redirect
service's `validateShortCode` (resolver.go) performs the same checks
(its extra emptiness test is subsumed by the length bound). -/
def validateShortCode (s : String) : Bool :=
  decide (3 ≤ s.length) && decide (s.length ≤ 10) && s.toList.all Char.isAlphanum

/-- The minting alphabet of `URLService.generateShortCode` (service.go). -/
def charset : String :=
  "abcdefghijklmnopqrstuvwxyzABCDEFGHIJKLMNOPQRSTUVWXYZ0123456789"

/-- One step of the minting loop: `charset[int(b)%len(charset)]`. -/
def byteToChar (b : Nat) : Char :=
  charset.toList.getD (b % charset.toList.length) 'a'

/-- The 7-byte draw of one minting attempt mapped into the alphabet. -/
def codeOfBytes (bs : List Nat) : String :=
  String.mk (bs.map byteToChar)

/-- Number of byte values (0..255) that `byteToChar` sends to `c`. -/
def charPreimageCount (c : Char) : Nat :=
  (List.range 256).countP (fun b => byteToChar b == c)

/-- `PostgreSQL.GetURLByShortCode` (utils/rpc/strategy.go): lookup
filtered by `short_code = $1 AND is_active = true`. -/
def getURLByShortCode (table : List URLMapping) (code : String) : Option URLMapping :=
  table.find? (fun r => r.shortCode == code && r.isActive)

/-- `PostgreSQL.CreateURL` (strategy.go): an insert that hits the
`short_code` unique constraint whenever any row (active or not) already
carries the code; otherwise the row is appended. -/
def createURL (table : List URLMapping) (row : URLMapping) :
    Except DomainErr (List URLMapping) :=
  if table.any (fun r => r.shortCode == row.shortCode) then .error .saveFailed
  else .ok (table ++ [row])

/-- The retry loop body of `URLService.generateShortCode`: try each
fresh draw in turn, returning the first code not already present. -/
def generateShortCodeLoop (table : List URLMapping) :
    List (List Nat) → Except DomainErr String
  | [] => .error .exhaustedCodeSpace
  | bs :: rest =>
    let code := codeOfBytes bs
    match getURLByShortCode table code with
    | none => .ok code
    | some _ => generateShortCodeLoop table rest

/-- `URLService.generateShortCode` (service.go): up to 10 attempts, each
drawing 7 fresh random bytes (`draws` supplies the attempts' bytes). -/
def generateShortCode (table : List URLMapping) (draws : List (List Nat)) :
    Except DomainErr String :=
  generateShortCodeLoop table (draws.take 10)

/-- Substring search over char lists: some suffix starts with `need`
(models Go `strings.Contains`). -/
def containsSubList (need : List Char) : List Char → Bool
  | [] => need.isEmpty
  | c :: rest => need.isPrefixOf (c :: rest) || containsSubList need rest

/-- Go `strings.Contains`. -/
def containsSub (s sub : String) : Bool :=
  containsSubList sub.toList s.toList

/-- Split a char list at the first occurrence of `marker`, dropping the
marker itself; `none` when the marker does not occur. -/
def splitAtMarker (marker : List Char) : List Char → Option (List Char × List Char)
  | [] => if marker.isEmpty then some ([], []) else none
  | c :: rest =>
    if marker.isPrefixOf (c :: rest) then some ([], (c :: rest).drop marker.length)
    else
      match splitAtMarker marker rest with
      | some (a, b) => some (c :: a, b)
      | none => none

/-- Models `net/url.Parse` restricted to the absolute hierarchical URLs
this system exchanges (`scheme://host[:port][/path...]`): the scheme is
everything before the first `://`, the host everything after it up to
the next `/`.  URLs without `://` carry an empty host in Go and are
rejected by every caller here, which the `none` result mirrors. -/
def parseSchemeHost (s : String) : Option (String × String) :=
  match splitAtMarker [':', '/', '/'] s.toList with
  | none => none
  | some (scheme, rest) => some (String.mk scheme, String.mk (rest.takeWhile (fun c => c ≠ '/')))

/-- `URLService.validateURL` (service.go): non-empty, parses, scheme is
`http` or `https`, host non-empty. -/
def validateURL (longURL : String) : Bool :=
  if longURL == "" then false
  else
    match parseSchemeHost longURL with
    | none => false
    | some (scheme, host) => (scheme == "http" || scheme == "https") && host != ""

/-- One dotted-decimal part of an IPv4 address as `net.ParseIP` accepts
it: 1–3 decimal digits, value at most 255, no leading zero. -/
def ipv4Part (cs : List Char) : Option Nat :=
  if cs.isEmpty then none
  else if !cs.all Char.isDigit then none
  else if decide (1 < cs.length) && cs.head? == some '0' then none
  else
    let n := cs.foldl (fun a c => a * 10 + (c.toNat - 48)) 0
    if decide (cs.length ≤ 3) && decide (n ≤ 255) then some n else none

/-- Split a char list on a separator character (model of `strings.Split`
/ the grouping `String.splitOn` performs). -/
def splitOnChar (sep : Char) : List Char → List (List Char)
  | [] => [[]]
  | c :: rest =>
    if c = sep then [] :: splitOnChar sep rest
    else
      match splitOnChar sep rest with
      | g :: gs => (c :: g) :: gs
      | [] => [[c]]

/-- Models `net.ParseIP` for IPv4 dotted-decimal strings (the system
never feeds it IPv6 literals). -/
def parseIPv4 (s : String) : Option (Nat × Nat × Nat × Nat) :=
  match (splitOnChar '.' s.toList).map ipv4Part with
  | [some a, some b, some c, some d] => some (a, b, c, d)
  | _ => none

/-- `RedirectService.isPrivateIP` (resolver.go): strip a `:port`
suffix, parse as IP (`false` for non-IP hosts), then test the RFC1918
ranges 10/8, 172.16/12 and 192.168/16 (Go's `ip.IsPrivate()` and the
three explicit mask checks cover exactly these for IPv4). -/
def isPrivateIP (host : String) : Bool :=
  let hostIP :=
    if containsSub host ":" then String.mk (host.toList.takeWhile (fun c => c ≠ ':'))
    else host
  match parseIPv4 hostIP with
  | none => false
  | some (a, b, _, _) =>
    a == 10 || (a == 172 && decide (16 ≤ b) && decide (b ≤ 31)) || (a == 192 && b == 168)

/-- `RedirectService.validateDestinationURL` (resolver.go): valid
scheme and host, not a private IP, host contains neither `localhost`
nor `127.0.0.1`. -/
def validateDestinationURL (longURL : String) : Bool :=
  match parseSchemeHost longURL with
  | none => false
  | some (scheme, host) =>
    (scheme == "http" || scheme == "https") && host != "" &&
      !isPrivateIP host && !containsSub host "localhost" && !containsSub host "127.0.0.1"

/-- `CacheEntry` (redirect-svc/store/store.go): the projection of a
mapping stored in the cache under key `url:short:<code>`. -/
structure CacheEntry where
  shortCode : String
  longURL : String
  createdAt : Int := 0
  expiresAt : Option Int := none
  clickCount : Int := 0
  isActive : Bool := true
deriving Repr, DecidableEq

/-- The cache side effect of one `RedirectStore.ResolveURL` call on the
entry keyed by the resolved short code. -/
inductive CacheOp where
  | keep
  | del
  | set (e : CacheEntry) (ttlSeconds : Int)
deriving Repr, DecidableEq

/-- The `domain.URL` the redirect store builds from a cache hit
(ID 0, empty user and metadata, no last-accessed). -/
def urlOfCacheEntry (e : CacheEntry) : URLMapping :=
  { id := 0, shortCode := e.shortCode, longURL := e.longURL, userID := "",
    createdAt := e.createdAt, expiresAt := e.expiresAt, clickCount := e.clickCount,
    lastAccessed := none, isActive := e.isActive }

/-- The cache entry the redirect store writes through on a miss. -/
def cacheEntryOfURL (u : URLMapping) : CacheEntry :=
  { shortCode := u.shortCode, longURL := u.longURL, createdAt := u.createdAt,
    expiresAt := u.expiresAt, clickCount := u.clickCount, isActive := u.isActive }

/-- `RedirectStore.ResolveURL` (redirect-svc/store/store.go).  `cache`
is the (well-formed) entry currently cached under `url:short:<code>`,
`table` the `url_mappings` rows.  Cache hit: an entry past its expiry is
deleted and reported as `URL expired`, otherwise returned as-is (active
or not).  Miss: the row is fetched filtered by `is_active = true`
(absence gives `short URL not found`), an expired row gives
`URL expired`, otherwise the projection is written through to the cache
with a 24-hour TTL.  Error strings are the source's. -/
def storeResolveURL (cache : Option CacheEntry) (table : List URLMapping)
    (now : Int) (shortCode : String) : Except String URLMapping × CacheOp :=
  match cache with
  | some entry =>
    match entry.expiresAt with
    | some e =>
      if e < now then (.error "URL expired", .del)
      else (.ok (urlOfCacheEntry entry), .keep)
    | none => (.ok (urlOfCacheEntry entry), .keep)
  | none =>
    match getURLByShortCode table shortCode with
    | none => (.error "short URL not found", .keep)
    | some row =>
      match row.expiresAt with
      | some e =>
        if e < now then (.error "URL expired", .keep)
        else (.ok row, .set (cacheEntryOfURL row) 86400)
      | none => (.ok row, .set (cacheEntryOfURL row) 86400)

/-- The error strings of the domain errors (`domain/models.go`). -/
def domainErrMessage : DomainErr → String
  | .invalidURL => "invalid URL format"
  | .urlNotFound => "URL not found"
  | .urlExpired => "URL has expired"
  | .unauthorized => "unauthorized access to URL"
  | .customAliasUsed => "custom alias already exists"
  | .invalidShortCode => "invalid short code format"
  | .saveFailed => "failed to save URL"
  | .exhaustedCodeSpace => "failed to generate unique short code after 10 attempts"

/-- `RedirectResult` (redirect-svc/domain/resolver.go). -/
structure RedirectResult where
  longURL : String := ""
  found : Bool := false
  expired : Bool := false
  createdAt : Int := 0
  expiresAt : Option Int := none
  clickCount : Int := 0
  error : String := ""
deriving Repr, DecidableEq

/-- Steps 2–5 of `RedirectService.ResolveURL` (resolver.go): classify
the store outcome.  Store errors are matched by substring (`not found`
→ not found, `expired` → expired); any other store error propagates as
a wrapped Go error.  On success the business rules
`IsValidForRedirect` and `validateDestinationURL` run; the
fire-and-forget click-count increment does not affect the response and
is not modelled. -/
def domainClassify (now : Int) (storeOutcome : Except String URLMapping) :
    Except String RedirectResult :=
  match storeOutcome with
  | .error msg =>
    if containsSub msg "not found" then .ok { found := false, error := "Short URL not found" }
    else if containsSub msg "expired" then
      .ok { found := true, expired := true, error := "Short URL has expired" }
    else .error ("failed to resolve URL: " ++ msg)
  | .ok url =>
    match isValidForRedirect now url with
    | some .urlExpired =>
      .ok { found := true, expired := true, longURL := url.longURL,
            createdAt := url.createdAt, expiresAt := url.expiresAt,
            error := "URL has expired" }
    | some e => .ok { found := false, error := domainErrMessage e }
    | none =>
      if !validateDestinationURL url.longURL then
        .ok { found := false, error := "invalid destination URL" }
      else
        .ok { longURL := url.longURL, found := true, expired := false,
              createdAt := url.createdAt, expiresAt := url.expiresAt,
              clickCount := url.clickCount }

/-- `RedirectService.ResolveURL` (resolver.go): short-code syntax check
first (returning an in-band invalid result without touching the store),
then the cache-first store lookup and the classification above. -/
def domainResolveURL (cache : Option CacheEntry) (table : List URLMapping)
    (now : Int) (shortCode : String) : Except String RedirectResult × CacheOp :=
  if !validateShortCode shortCode then
    (.ok { found := false, error := "invalid short code" }, .keep)
  else
    let r := storeResolveURL cache table now shortCode
    (domainClassify now r.1, r.2)

/-- `ResolveResponse` (proto/redirect): the RPC response fields the
handler fills. -/
structure ResolveResponse where
  longUrl : String := ""
  found : Bool := false
  expired : Bool := false
  clickCount : Int := 0
  error : String := ""
deriving Repr, DecidableEq

/-- The `(response, returned error)` pair of the RPC handler. -/
structure RpcOut where
  err : Option String
  rsp : ResolveResponse
deriving Repr, DecidableEq

/-- `RedirectHandler.ResolveURL` (redirect-svc/handler/handler.go):
empty short code and service-level errors are reported in-band in the
response; the handler's Go `error` return is nil on every path. -/
def rpcClassify (shortCode : String) (domainOutcome : Except String RedirectResult) :
    RpcOut :=
  if shortCode == "" then
    { err := none, rsp := { found := false, error := "Short code is required" } }
  else
    match domainOutcome with
    | .error msg =>
      { err := none, rsp := { found := false, error := "Internal error: " ++ msg } }
    | .ok r =>
      { err := none,
        rsp := { longUrl := r.longURL, found := r.found, expired := r.expired,
                 clickCount := r.clickCount, error := r.error } }

/-- The full Resolve pipeline: RPC handler over domain service over the
cache-first store. -/
def resolveFull (cache : Option CacheEntry) (table : List URLMapping)
    (now : Int) (shortCode : String) : RpcOut × CacheOp :=
  let r := domainResolveURL cache table now shortCode
  (rpcClassify shortCode r.1, r.2)

/-- The cache TTL `URLService.ShortenURL` (service.go) computes: 24
hours by default, `expires_at − now` when the expiry falls inside the
next 24 hours (`cacheURL` uses the same rule when `GetURL`
repopulates). -/
def shortenCacheTTL (now : Int) (expiresAt : Option Int) : Int :=
  let ttl : Int := 86400
  match expiresAt with
  | none => ttl
  | some e => if e < now + ttl then e - now else ttl

/-- The typed projection `URLService.ShortenURL` / `cacheURL`
(service.go) store under `url:short:<code>`: the `urlData` map with
keys `long_url`, `user_id`, `created_at`, optional `expires_at`,
`is_active`. -/
structure CacheData where
  longURL : String
  userID : String := ""
  createdAt : Int := 0
  expiresAt : Option Int := none
  isActive : Bool := true
deriving Repr, DecidableEq

/-- `URLService.cacheToURL` (service.go): rebuild a domain URL from the
cached map; fields not cached keep their zero values. -/
def cacheToURL (shortCode : String) (d : CacheData) : URLMapping :=
  { id := 0, shortCode := shortCode, longURL := d.longURL, userID := d.userID,
    createdAt := d.createdAt, expiresAt := d.expiresAt, clickCount := 0,
    lastAccessed := none, isActive := d.isActive }

/-- The projection `cacheURL` / `ShortenURL` write for a mapping. -/
def urlCacheData (u : URLMapping) : CacheData :=
  { longURL := u.longURL, userID := u.userID, createdAt := u.createdAt,
    expiresAt := u.expiresAt, isActive := u.isActive }

/-- The cache side effect of a shortener-service operation on the entry
keyed by the operation's short code. -/
inductive ShortCacheOp where
  | keep
  | del
  | set (d : CacheData) (ttlSeconds : Int)
deriving Repr, DecidableEq

/-- `URLService.GetURL` (service.go): cache first; on a hit the cached
projection is rebuilt and the owner check runs against it; on a miss
the row is read (`is_active = true` filter), the owner check runs, and
the projection is re-cached with the `shortenCacheTTL` rule.  An empty
caller `userID` skips the owner check (public read). -/
def getURL (cache : Option CacheData) (table : List URLMapping) (now : Int)
    (shortCode userID : String) : Except DomainErr URLMapping × ShortCacheOp :=
  match cache with
  | some d =>
    let url := cacheToURL shortCode d
    if userID != "" && !canAccess url userID then (.error .unauthorized, .keep)
    else (.ok url, .keep)
  | none =>
    match getURLByShortCode table shortCode with
    | none => (.error .urlNotFound, .keep)
    | some row =>
      if userID != "" && !canAccess row userID then (.error .unauthorized, .keep)
      else (.ok row, .set (urlCacheData row) (shortenCacheTTL now row.expiresAt))

/-- `UpdateURLRequest` (domain/models.go); `metadata` carries the
serialized replacement map when present. -/
structure UpdateURLRequest where
  shortCode : String
  userID : String
  newLongURL : String := ""
  newExpirationTime : Option Int := none
  metadata : Option String := none
deriving Repr, DecidableEq

/-- The state `URLService.UpdateURL` leaves behind: the value returned
to the caller, the `url_mappings` table, and the cache entry under the
code's key. -/
structure UpdateOutcome where
  result : Except DomainErr URLMapping
  table : List URLMapping
  cache : Option CacheData
deriving Repr, DecidableEq

/-- `URLService.UpdateURL` (service.go): authorize via `GetURL`,
validate a new long URL, build the updated model, delete the cache
entry, and return the model.  The database write is not implemented in
the source (`TODO: Implement database update operation`), so the table
is returned unchanged. -/
def updateURL (cache : Option CacheData) (table : List URLMapping) (now : Int)
    (req : UpdateURLRequest) : UpdateOutcome :=
  match (getURL cache table now req.shortCode req.userID).1 with
  | .error e => { result := .error e, table := table, cache := cache }
  | .ok existing =>
    if req.newLongURL != "" && !validateURL req.newLongURL then
      { result := .error .invalidURL, table := table, cache := cache }
    else
      let u1 := if req.newLongURL != "" then { existing with longURL := req.newLongURL }
                else existing
      let u2 := match req.newExpirationTime with
                | some t => { u1 with expiresAt := some t }
                | none => u1
      let u3 := match req.metadata with
                | some m => { u2 with metadata := m }
                | none => u2
      let updated := req.newLongURL != "" || req.newExpirationTime.isSome || req.metadata.isSome
      if !updated then { result := .ok existing, table := table, cache := cache }
      else { result := .ok u3, table := table, cache := none }

/-- `CreateURLRequest` (domain/models.go); `metadata` is the serialized
form when provided. -/
structure CreateURLRequest where
  longURL : String
  customAlias : String := ""
  expirationTime : Option Int := none
  userID : String := ""
  metadata : Option String := none
deriving Repr, DecidableEq

/-- The state `URLService.ShortenURL` leaves behind. -/
structure ShortenOutcome where
  result : Except DomainErr URLMapping
  table : List URLMapping
  cacheOp : ShortCacheOp
deriving Repr, DecidableEq

/-- `URLService.ShortenURL` (service.go): validate the long URL; with a
custom alias, validate its format and check availability through
`GetURLByShortCode` (which sees only active rows), otherwise mint a
code; insert (the unique constraint on `short_code` rejects any
duplicate, active or not, as a generic save failure); cache the
projection with the `shortenCacheTTL` rule. -/
def shortenURL (table : List URLMapping) (now : Int) (draws : List (List Nat))
    (req : CreateURLRequest) : ShortenOutcome :=
  if !validateURL req.longURL then
    { result := .error .invalidURL, table := table, cacheOp := .keep }
  else
    let codeRes : Except DomainErr String :=
      if req.customAlias != "" then
        if !validateShortCode req.customAlias then .error .invalidShortCode
        else
          match getURLByShortCode table req.customAlias with
          | some _ => .error .customAliasUsed
          | none => .ok req.customAlias
      else generateShortCode table draws
    match codeRes with
    | .error e => { result := .error e, table := table, cacheOp := .keep }
    | .ok code =>
      let row : URLMapping :=
        { id := 0, shortCode := code, longURL := req.longURL, userID := req.userID,
          createdAt := now, expiresAt := req.expirationTime, clickCount := 0,
          lastAccessed := none, isActive := true,
          metadata := req.metadata.getD "\x7b\x7d" }
      match createURL table row with
      | .error e => { result := .error e, table := table, cacheOp := .keep }
      | .ok table2 =>
        { result := .ok row, table := table2,
          cacheOp := .set (urlCacheData row) (shortenCacheTTL now req.expirationTime) }

/-- The `ORDER BY created_at DESC` relation of `GetURLsByUserID`. -/
def createdDesc (a b : URLMapping) : Prop := b.createdAt ≤ a.createdAt

instance : DecidableRel createdDesc :=
  fun a b => inferInstanceAs (Decidable (b.createdAt ≤ a.createdAt))

/-- `PostgreSQL.GetURLsByUserID` (utils/rpc/strategy.go): rows with
`user_id = $1 AND is_active = true`, always `ORDER BY created_at DESC`
(the query has no other ordering), then `OFFSET`/`LIMIT`. -/
def getURLsByUserID (table : List URLMapping) (userID : String)
    (limit offset : Nat) : List URLMapping :=
  ((List.insertionSort createdDesc
      (table.filter (fun r => r.userID == userID && r.isActive))).drop offset).take limit

/-- `GetUserURLsRequest` (domain/models.go). -/
structure GetUserURLsRequest where
  userID : String
  page : Int := 0
  pageSize : Int := 0
  sortBy : String := ""
  sortOrder : String := ""
deriving Repr, DecidableEq

/-- `GetUserURLsResponse` (domain/models.go). -/
structure GetUserURLsResponse where
  urls : List URLMapping
  totalCount : Int
  page : Int
  pageSize : Int
  hasNext : Bool
deriving Repr, DecidableEq

/-- `URLService.GetUserURLs` (service.go): default the pagination,
fetch `pageSize + 1` rows to compute `has_next`, drop the extra row. -/
def getUserURLs (table : List URLMapping) (req : GetUserURLsRequest) :
    GetUserURLsResponse :=
  let pageSize := if req.pageSize ≤ 0 || 100 < req.pageSize then 20 else req.pageSize
  let page := if req.page ≤ 0 then 1 else req.page
  let offset := (page - 1) * pageSize
  let rows := getURLsByUserID table req.userID (pageSize + 1).toNat offset.toNat
  let hasNext := decide (pageSize.toNat < rows.length)
  let urls := if hasNext then rows.take pageSize.toNat else rows
  { urls := urls, totalCount := urls.length, page := page, pageSize := pageSize,
    hasNext := hasNext }

/-- A cached mapping expiring exactly at the resolve instant (t = 1000). -/
def c1Entry : CacheEntry :=
  { shortCode := "abc1234", longURL := "https://example.com/a", createdAt := 0,
    expiresAt := some 1000, clickCount := 7, isActive := true }

/-- The same mapping as a primary-store row. -/
def c1Row : URLMapping :=
  { shortCode := "abc1234", longURL := "https://example.com/a", userID := "u1",
    createdAt := 0, expiresAt := some 1000, clickCount := 7, isActive := true }

/-- A cached mapping strictly past its expiry at t = 1000. -/
def c1wEntry : CacheEntry :=
  { shortCode := "abc1234", longURL := "https://example.com/a", expiresAt := some 999 }

/-- A row whose expiry (t = 1003600) falls 3600 s after the resolve
instant (t = 1000000). -/
def c5Row : URLMapping :=
  { shortCode := "abc1234", longURL := "https://example.com/a", userID := "u1",
    createdAt := 0, expiresAt := some 1003600, clickCount := 0, isActive := true }

/-- An existing mapping to be updated (owner `u1`). -/
def c2Row : URLMapping :=
  { shortCode := "abc1234", longURL := "https://example.com/old", userID := "u1",
    createdAt := 5, isActive := true }

/-- An update of that mapping's long URL by its owner. -/
def c2Req : UpdateURLRequest :=
  { shortCode := "abc1234", userID := "u1", newLongURL := "https://example.com/new" }

/-- A soft-deleted mapping occupying the code `alias1`. -/
def c3Row : URLMapping :=
  { shortCode := "alias1", longURL := "https://example.com/x", userID := "u0",
    isActive := false }

/-- A Shorten request asking for the custom alias `alias1`. -/
def c3Req : CreateURLRequest :=
  { longURL := "https://example.com/y", customAlias := "alias1", userID := "u2" }

/-- Older mapping (created_at 1) with the higher click count. -/
def c6RowA : URLMapping :=
  { shortCode := "aaa1111", longURL := "https://example.com/a", userID := "u1",
    createdAt := 1, clickCount := 100, isActive := true }

/-- Newer mapping (created_at 2) with the lower click count. -/
def c6RowB : URLMapping :=
  { shortCode := "bbb1111", longURL := "https://example.com/b", userID := "u1",
    createdAt := 2, clickCount := 5, isActive := true }

/-- A ListByOwner request asking for click-count descending order. -/
def c6Req : GetUserURLsRequest :=
  { userID := "u1", page := 1, pageSize := 10, sortBy := "click_count",
    sortOrder := "desc" }

/-- A cached projection owned by `u1`. -/
def c8Cache : CacheData :=
  { longURL := "https://example.com/a", userID := "u1", createdAt := 0 }

/-- The same mapping as a primary-store row owned by `u1`. -/
def c8Row : URLMapping :=
  { shortCode := "abc1234", longURL := "https://example.com/a", userID := "u1",
    isActive := true }

/-- `ClickRecord` (analytics domain): an enriched click persisted in
the `click_analytics` ClickHouse table. -/
structure ClickRecord where
  shortCode : String
  longURL : String := ""
  clientIP : String := ""
  userAgent : String := ""
  referrer : String := ""
  country : String := ""
  city : String := ""
  deviceType : String := ""
  browser : String := ""
  os : String := ""
  timestamp : Int
  sessionID : String := ""
  isUnique : Bool := false
  createdAt : Int := 0
deriving Repr, DecidableEq

/-- The `WHERE short_code = ? AND timestamp BETWEEN ? AND ?` filter all
the analytics queries share (`BETWEEN` is inclusive on both ends). -/
def clickMatches (sc : String) (st en : Int) (r : ClickRecord) : Bool :=
  r.shortCode == sc && decide (st ≤ r.timestamp) && decide (r.timestamp ≤ en)

/-- `URLStats` (analytics domain); zero values model Go's zero
`time.Time` / counters. -/
structure URLStats where
  shortCode : String
  totalClicks : Int := 0
  uniqueClicks : Int := 0
  lastClicked : Int := 0
  createdAt : Int := 0
deriving Repr, DecidableEq

/-- Maximum of an integer list (0 for the empty list); models the SQL
`max` aggregate over a non-empty group. -/
def listMaxI (l : List Int) : Int := l.foldl max (l.headD 0)

/-- Minimum of an integer list (0 for the empty list). -/
def listMinI (l : List Int) : Int := l.foldl min (l.headD 0)

/-- `ClickHouseStoreImpl.GetURLStats`: `count()`, `uniq(session_id)`,
`max(timestamp)`, `min(created_at)` grouped by the short code; when no
row matches, the `sql.ErrNoRows` branch returns all-zero stats instead
of an error. -/
def storeGetURLStats (records : List ClickRecord) (sc : String) (st en : Int) :
    URLStats :=
  let m := records.filter (clickMatches sc st en)
  match m with
  | [] => { shortCode := sc }
  | _ =>
    { shortCode := sc, totalClicks := m.length,
      uniqueClicks := (m.map (fun r => r.sessionID)).dedup.length,
      lastClicked := listMaxI (m.map (fun r => r.timestamp)),
      createdAt := listMinI (m.map (fun r => r.createdAt)) }

/-- Proleptic-Gregorian UTC calendar: days-since-epoch to
(year, month); the standard civil-from-days computation, used to model
ClickHouse `toStartOfMonth`. -/
def civilYearMonth (days : Int) : Int × Int :=
  let z := days + 719468
  let era := Int.fdiv z 146097
  let doe := z - era * 146097
  let yoe := Int.fdiv (doe - Int.fdiv doe 1460 + Int.fdiv doe 36524 - Int.fdiv doe 146096) 365
  let y := yoe + era * 400
  let doy := doe - (365 * yoe + Int.fdiv yoe 4 - Int.fdiv yoe 100)
  let mp := Int.fdiv (5 * doy + 2) 153
  let m := mp + (if mp < 10 then 3 else -9)
  (y + (if m ≤ 2 then 1 else 0), m)

/-- Days since the Unix epoch of the first day of a civil month. -/
def daysOfCivilMonthStart (ym : Int × Int) : Int :=
  let y := ym.1 - (if ym.2 ≤ 2 then 1 else 0)
  let era := Int.fdiv y 400
  let yoe := y - era * 400
  let mp := Int.emod (ym.2 + 9) 12
  let doy := Int.fdiv (153 * mp + 2) 5
  let doe := yoe * 365 + Int.fdiv yoe 4 - Int.fdiv yoe 100 + doy
  era * 146097 + doe - 719468

/-- The start-of-bucket functions of
`ClickHouseStoreImpl.GetTimeSeriesData`: `toStartOfHour`,
`toStartOfDay`, `toStartOfWeek` (Sunday-based), `toStartOfMonth`
(civil calendar, UTC); anything else falls back to the hour bucket. -/
def bucketStart (granularity : String) (ts : Int) : Int :=
  if granularity == "hour" then ts - Int.emod ts 3600
  else if granularity == "day" then ts - Int.emod ts 86400
  else if granularity == "week" then
    let days := Int.fdiv ts 86400
    (days - Int.emod (days + 4) 7) * 86400
  else if granularity == "month" then
    daysOfCivilMonthStart (civilYearMonth (Int.fdiv ts 86400)) * 86400
  else ts - Int.emod ts 3600

/-- `TimeSeriesData` (analytics domain). -/
structure TimeSeriesData where
  timestamp : Int
  clicks : Int
  uniqueClicks : Int
deriving Repr, DecidableEq

/-- `ClickHouseStoreImpl.GetTimeSeriesData`: matching records grouped
by the granularity bucket of their timestamp, `ORDER BY timestamp`
ascending. -/
def storeGetTimeSeriesData (records : List ClickRecord) (sc : String)
    (st en : Int) (granularity : String) : List TimeSeriesData :=
  let m := records.filter (clickMatches sc st en)
  let buckets := List.insertionSort (fun a b : Int => a ≤ b)
    ((m.map (fun r => bucketStart granularity r.timestamp)).dedup)
  buckets.map (fun b =>
    let g := m.filter (fun r => bucketStart granularity r.timestamp == b)
    { timestamp := b, clicks := g.length,
      uniqueClicks := (g.map (fun r => r.sessionID)).dedup.length })

/-- One row of a top-K dimension breakdown: key, clicks, and the
percentage `clicks * 100 / total` the window function computes
(modelled exactly as a rational). -/
structure DimensionMetrics where
  key : String
  clicks : Int
  percentage : Rat
deriving Repr, DecidableEq

/-- The shared shape of the four breakdown queries: group the matching
records by `f`, count each group, attach the percentage of the grouped
total, `ORDER BY clicks DESC`, `LIMIT lim`. -/
def dimensionBreakdown (m : List ClickRecord) (f : ClickRecord → String)
    (lim : Nat) : List DimensionMetrics :=
  let total : Rat := m.length
  let ks := (m.map f).dedup
  let rows := ks.map (fun k =>
    let c := (m.filter (fun r => f r == k)).length
    { key := k, clicks := (c : Int), percentage := (c : Rat) * 100 / total :
      DimensionMetrics })
  (List.insertionSort (fun a b : DimensionMetrics => b.clicks ≤ a.clicks) rows).take lim

/-- `ClickHouseStoreImpl.GetCountryStats`: rows with `country != ''`,
top 10 by clicks. -/
def storeGetCountryStats (records : List ClickRecord) (sc : String) (st en : Int) :
    List DimensionMetrics :=
  dimensionBreakdown
    ((records.filter (clickMatches sc st en)).filter (fun r => r.country != ""))
    (fun r => r.country) 10

/-- `ClickHouseStoreImpl.GetDeviceStats`: rows with
`device_type != ''`, all groups, ordered by clicks. -/
def storeGetDeviceStats (records : List ClickRecord) (sc : String) (st en : Int) :
    List DimensionMetrics :=
  let m := (records.filter (clickMatches sc st en)).filter (fun r => r.deviceType != "")
  dimensionBreakdown m (fun r => r.deviceType) m.length

/-- `ClickHouseStoreImpl.GetBrowserStats`: rows with `browser != ''`,
top 10 by clicks. -/
def storeGetBrowserStats (records : List ClickRecord) (sc : String) (st en : Int) :
    List DimensionMetrics :=
  dimensionBreakdown
    ((records.filter (clickMatches sc st en)).filter (fun r => r.browser != ""))
    (fun r => r.browser) 10

/-- `ClickHouseStoreImpl.GetReferrerStats`: empty referrers collapse to
`Direct` before grouping, top 10 by clicks. -/
def storeGetReferrerStats (records : List ClickRecord) (sc : String) (st en : Int) :
    List DimensionMetrics :=
  dimensionBreakdown (records.filter (clickMatches sc st en))
    (fun r => if r.referrer == "" then "Direct" else r.referrer) 10

/-- `URLStatsReport` (analytics domain). -/
structure URLStatsReport where
  urlStats : URLStats
  timeSeries : List TimeSeriesData
  countryStats : List DimensionMetrics
  deviceStats : List DimensionMetrics
  browserStats : List DimensionMetrics
  referrerStats : List DimensionMetrics
deriving Repr, DecidableEq

/-- `AnalyticsServiceImpl.GetURLStats`: compose the six store queries
(the pure store model cannot fail, so no error path arises). -/
def serviceGetURLStats (records : List ClickRecord) (sc : String) (st en : Int)
    (granularity : String) : URLStatsReport :=
  { urlStats := storeGetURLStats records sc st en,
    timeSeries := storeGetTimeSeriesData records sc st en granularity,
    countryStats := storeGetCountryStats records sc st en,
    deviceStats := storeGetDeviceStats records sc st en,
    browserStats := storeGetBrowserStats records sc st en,
    referrerStats := storeGetReferrerStats records sc st en }

/-- `StatsRequest` (proto/analytics): zero time fields mean "default". -/
structure StatsRequest where
  shortCode : String
  startTime : Int := 0
  endTime : Int := 0
  granularity : String := ""
deriving Repr, DecidableEq

/-- `StatsResponse` (proto/analytics): the handler fills the totals and
(per its `TEMPORARY FIX`) always leaves the complex arrays nil. -/
structure StatsResponse where
  shortCode : String
  totalClicks : Int := 0
  uniqueClicks : Int := 0
  timeSeries : List TimeSeriesData := []
  countryStats : List DimensionMetrics := []
  deviceStats : List DimensionMetrics := []
  browserStats : List DimensionMetrics := []
  referrerStats : List DimensionMetrics := []
deriving Repr, DecidableEq

/-- `AnalyticsHandler.GetURLStats` (analytics-svc/handler/handler.go):
default the range to the last 30 days and the granularity to `day`,
query the service, and return only the basic totals with nil arrays.
The only error return forwards a service failure, which the pure store
model never produces. -/
def handlerGetURLStats (records : List ClickRecord) (now : Int)
    (req : StatsRequest) : Except String StatsResponse :=
  let st := if 0 < req.startTime then req.startTime else now - 30 * 86400
  let en := if 0 < req.endTime then req.endTime else now
  let gran := if req.granularity == "" then "day" else req.granularity
  let report := serviceGetURLStats records req.shortCode st en gran
  .ok { shortCode := req.shortCode,
        totalClicks := report.urlStats.totalClicks,
        uniqueClicks := report.urlStats.uniqueClicks }

/-- A click record present in the store but outside every queried
range used by the C9 witness. -/
def c9Record : ClickRecord :=
  { shortCode := "abc1234", timestamp := 75, sessionID := "s1" }

/-- A stats request with an empty range: `end_time < start_time`. -/
def c9Req : StatsRequest :=
  { shortCode := "abc1234", startTime := 100, endTime := 50, granularity := "hour" }

/-- The standard base64 alphabet of `encoding/base64.StdEncoding`. -/
def b64Alphabet : String :=
  "ABCDEFGHIJKLMNOPQRSTUVWXYZabcdefghijklmnopqrstuvwxyz0123456789+/"

/-- One six-bit group to its alphabet character. -/
def sixToChar (n : Nat) : Char := b64Alphabet.toList.getD n 'A'

/-- An alphabet character back to its six-bit group (`none` for
characters outside the alphabet, including `'='`). -/
def charToSix (c : Char) : Option Nat :=
  b64Alphabet.toList.findIdx? (fun x => x == c)

/-- `base64.StdEncoding` encoding over bytes carried as chars
(`c.toNat` is the byte value): three bytes to four characters, with
`=` padding for one- and two-byte tails. -/
def b64encode : List Char → List Char
  | [] => []
  | [a] =>
    [sixToChar (a.toNat / 4), sixToChar (a.toNat % 4 * 16), '=', '=']
  | [a, b] =>
    [sixToChar (a.toNat / 4), sixToChar (a.toNat % 4 * 16 + b.toNat / 16),
     sixToChar (b.toNat % 16 * 4), '=']
  | a :: b :: c :: rest =>
    sixToChar (a.toNat / 4) :: sixToChar (a.toNat % 4 * 16 + b.toNat / 16) ::
    sixToChar (b.toNat % 16 * 4 + c.toNat / 64) :: sixToChar (c.toNat % 64) ::
    b64encode rest

/-- `base64.StdEncoding.DecodeString` (non-strict, as Go's default:
trailing bits are ignored): four-character quanta, `=` padding only in
the final quantum, `none` on bad characters or lengths. -/
def b64decode : List Char → Option (List Char)
  | [] => some []
  | c0 :: c1 :: c2 :: c3 :: rest =>
    match charToSix c0, charToSix c1 with
    | some s0, some s1 =>
      if c2 = '=' ∧ c3 = '=' ∧ rest = [] then
        some [Char.ofNat (s0 * 4 + s1 / 16)]
      else
        match charToSix c2 with
        | some s2 =>
          if c3 = '=' ∧ rest = [] then
            some [Char.ofNat (s0 * 4 + s1 / 16), Char.ofNat (s1 % 16 * 16 + s2 / 4)]
          else
            match charToSix c3 with
            | some s3 =>
              match b64decode rest with
              | some bs =>
                some (Char.ofNat (s0 * 4 + s1 / 16) ::
                  Char.ofNat (s1 % 16 * 16 + s2 / 4) ::
                  Char.ofNat (s2 % 4 * 64 + s3) :: bs)
              | none => none
            | none => none
        | none => none
    | _, _ => none
  | _ => none

/-- The body of a JSON string literal ending at its closing quote:
models `json.Unmarshal` into a `string` for payloads without escape
sequences (base64 text never needs any); `none` on escapes, embedded
quotes with trailing garbage, or a missing terminator. -/
def jsonStringContent : List Char → Option (List Char)
  | [] => none
  | c :: cs =>
    if c = '"' then (if cs = [] then some [] else none)
    else if c = '\\' then none
    else (jsonStringContent cs).map (fun r => c :: r)

/-- `json.Unmarshal(body, &encodedString)` for a quoted payload. -/
def jsonUnquote : List Char → Option (List Char)
  | [] => none
  | c :: rest => if c = '"' then jsonStringContent rest else none

/-- The encoding-detection stage of `subscribeToClickEvents`
(analytics-svc/microservice/microservice.go): when the first byte of
the body is a quote character, unmarshal the body as a JSON string and
base64-decode it; otherwise the body is the JSON payload itself.
`none` models the logged-and-dropped unmarshal/decode failures. -/
def handlerJsonData (body : List Char) : Option (List Char) :=
  if body.head? = some '"' then
    match jsonUnquote body with
    | none => none
    | some enc => b64decode enc
  else some body

/-- A JSON value as the flat click-event objects use them (strings
without escapes, integer numbers, booleans, null) — the fragment of
`encoding/json`'s `interface\x7b\x7d` decoding these messages exercise. -/
inductive JVal where
  | str (s : String)
  | num (n : Int)
  | boolean (b : Bool)
  | null
deriving Repr, DecidableEq

/-- The `\x7b` character. -/
def lbraceChar : Char := Char.ofNat 123

/-- The `\x7d` character. -/
def rbraceChar : Char := Char.ofNat 125

/-- JSON insignificant whitespace. -/
def isWsChar (c : Char) : Bool :=
  c = ' ' || c = '\n' || c = '\t' || c = '\r'

/-- Skip insignificant whitespace. -/
def skipWs (cs : List Char) : List Char := cs.dropWhile isWsChar

/-- Read a string-literal body up to its closing quote, returning the
content and the remaining input. -/
def stringTokContent : List Char → Option (List Char × List Char)
  | [] => none
  | c :: cs =>
    if c = '"' then some ([], cs)
    else if c = '\\' then none
    else (stringTokContent cs).map (fun p => (c :: p.1, p.2))

/-- An integer JSON number (optional minus, decimal digits). -/
def parseIntTok (cs : List Char) : Option (Int × List Char) :=
  let p := match cs with
    | '-' :: r => (true, r)
    | _ => (false, cs)
  let ds := p.2.takeWhile Char.isDigit
  if ds.isEmpty then none
  else
    let n : Nat := ds.foldl (fun a c => a * 10 + (c.toNat - 48)) 0
    some ((if p.1 then -(n : Int) else (n : Int)), p.2.dropWhile Char.isDigit)

/-- One JSON value of the flat fragment. -/
def parseValTok (cs0 : List Char) : Option (JVal × List Char) :=
  match skipWs cs0 with
  | [] => none
  | c :: rest =>
    if c = '"' then (stringTokContent rest).map (fun p => (.str (String.mk p.1), p.2))
    else if ['t','r','u','e'].isPrefixOf (c :: rest) then
      some (.boolean true, (c :: rest).drop 4)
    else if ['f','a','l','s','e'].isPrefixOf (c :: rest) then
      some (.boolean false, (c :: rest).drop 5)
    else if ['n','u','l','l'].isPrefixOf (c :: rest) then
      some (.null, (c :: rest).drop 4)
    else (parseIntTok (c :: rest)).map (fun p => (.num p.1, p.2))

/-- The members of a non-empty flat JSON object, fuelled by the input
length. -/
def parseMembers (fuel : Nat) (cs0 : List Char) :
    Option (List (String × JVal) × List Char) :=
  match fuel with
  | 0 => none
  | fuel + 1 =>
    match skipWs cs0 with
    | [] => none
    | c :: rest =>
      if c = '"' then
        match stringTokContent rest with
        | none => none
        | some (key, rest2) =>
          match skipWs rest2 with
          | ':' :: rest3 =>
            match parseValTok rest3 with
            | none => none
            | some (v, rest4) =>
              match skipWs rest4 with
              | [] => none
              | c5 :: rest5 =>
                if c5 = ',' then
                  (parseMembers fuel rest5).map
                    (fun p => ((String.mk key, v) :: p.1, p.2))
                else if c5 = rbraceChar then some ([(String.mk key, v)], rest5)
                else none
          | _ => none
      else none

/-- `json.Unmarshal(jsonData, &clickData)` restricted to the flat
objects the click events are: a single object of string/number/boolean
/null members with no trailing garbage. -/
def jsonParseFlatObj (cs : List Char) : Option (List (String × JVal)) :=
  match skipWs cs with
  | [] => none
  | c :: rest =>
    if c = lbraceChar then
      match skipWs rest with
      | [] => none
      | c2 :: rest2 =>
        if c2 = rbraceChar then
          if (skipWs rest2).isEmpty then some [] else none
        else
          match parseMembers (cs.length + 1) (c2 :: rest2) with
          | some (ms, r) => if (skipWs r).isEmpty then some ms else none
          | none => none
    else none

/-- `getStringFromMap` (microservice.go): the string under a key, `""`
when absent or not a string. -/
def getStringFromMap (m : List (String × JVal)) (k : String) : String :=
  match m.find? (fun p => p.1 == k) with
  | some (_, .str s) => s
  | _ => ""

/-- The subscriber's `domain.ClickEvent` fields. -/
structure ClickEvent where
  shortCode : String
  longURL : String
  clientIP : String
  userAgent : String
  referrer : String
  sessionID : String
  timestamp : Int
deriving Repr, DecidableEq

/-- The event construction of `subscribeToClickEvents`: string fields
via `getStringFromMap`, the timestamp from a numeric `timestamp` member
(`time.Now()`, i.e. `now`, otherwise). -/
def buildClickEvent (now : Int) (m : List (String × JVal)) : ClickEvent :=
  { shortCode := getStringFromMap m "short_code",
    longURL := getStringFromMap m "long_url",
    clientIP := getStringFromMap m "client_ip",
    userAgent := getStringFromMap m "user_agent",
    referrer := getStringFromMap m "referrer",
    sessionID := getStringFromMap m "session_id",
    timestamp :=
      match m.find? (fun p => p.1 == "timestamp") with
      | some (_, .num t) => t
      | _ => now }

/-- What one delivery does: process a decoded event or discard the
message. -/
inductive SubAction where
  | processed (e : ClickEvent)
  | discarded
deriving Repr, DecidableEq

/-- The broker handler's outcome: its returned Go error and its
action. -/
structure SubOut where
  err : Option String
  action : SubAction
deriving Repr, DecidableEq

/-- The `url.clicked` subscription handler of `subscribeToClickEvents`
(analytics-svc/microservice/microservice.go): detect the encoding,
decode, parse the flat JSON object, build the event.  Every failure
path logs and returns nil (so the broker does not redeliver); the
downstream `ProcessClick` call also never surfaces an error. -/
def subscribeHandleClick (now : Int) (body : List Char) : SubOut :=
  match handlerJsonData body with
  | none => { err := none, action := .discarded }
  | some jd =>
    match jsonParseFlatObj jd with
    | none => { err := none, action := .discarded }
    | some m => { err := none, action := .processed (buildClickEvent now m) }

/-- A concrete raw click-event payload (bytes of a flat JSON object). -/
def c7Body : List Char :=
  String.toList "\x7b\"short_code\":\"abc1234\",\"long_url\":\"https://example.com/a\",\"timestamp\":1700000000\x7d"

/-! ### Theorems -/

/-- C4 counterexample: the byte-to-character map of
`URLService.generateShortCode` is not uniform.  The alphabet character
at index 0 (`'a'`) has 5 byte preimages under `b mod 62` while the
character at index 8 (`'i'`) has only 4, because 256 = 4·62 + 8; so not
every alphabet character has equally many byte preimages, and 7-byte
random inputs do not produce every 7-character code equally often. -/
theorem generateShortCode_mod62_bias :
    charPreimageCount 'a' = 5 ∧ charPreimageCount 'i' = 4 ∧
      charPreimageCount 'a' ≠ charPreimageCount 'i' := by
  refine ⟨by decide, by decide, by decide⟩

/-- C4 amended: short-code minting draws 7 random bytes and maps each
byte via `b mod 62` into the alphabet, but the resulting distribution is
biased, not uniform over 62⁷: the first 8 alphabet characters
(`'a'`..`'h'`, the indices below 256 mod 62 = 8) each have exactly 5
byte preimages and the remaining 54 characters exactly 4. -/
theorem generateShortCode_preimage_counts :
    ∀ i : Fin 62, charPreimageCount (charset.toList.getD i.val 'a') =
      if i.val < 8 then 5 else 4 := by decide

/-- C1 counterexample: at the boundary `expires_at = now` (here both
1000) Resolve does not return Expired: the expiry checks on both the
cache-hit path and the primary-store path use the strict
`time.Now().After(expires_at)`, so a mapping expiring exactly now is
served as a successful redirect (`found = true`, `expired = false`,
with the long URL) on both paths. -/
theorem resolve_at_expiry_instant_redirects :
    ((1000 : Int) ≤ 1000) ∧
    (resolveFull (some c1Entry) [] 1000 "abc1234").1.rsp =
      { longUrl := "https://example.com/a", found := true, expired := false,
        clickCount := 7, error := "" } ∧
    (resolveFull none [c1Row] 1000 "abc1234").1.rsp =
      { longUrl := "https://example.com/a", found := true, expired := false,
        clickCount := 7, error := "" } :=
  ⟨le_refl _, by decide, by decide⟩

/-- C1 amended: for every mapping whose `expires_at` is strictly
earlier than now, Resolve reports `found = true, expired = true` (hence
never a successful redirect) on both the cache-hit path and the
primary-store path; at `expires_at = now` exactly, the mapping is still
treated as live (see the counterexample). -/
theorem resolve_expired_strictly_before_now (table : List URLMapping) (now : Int)
    (sc : String) (hsc : validateShortCode sc = true) :
    (∀ (entry : CacheEntry) (e : Int), entry.expiresAt = some e → e < now →
      (resolveFull (some entry) table now sc).1.rsp.found = true ∧
      (resolveFull (some entry) table now sc).1.rsp.expired = true) ∧
    (∀ (row : URLMapping) (e : Int), getURLByShortCode table sc = some row →
      row.expiresAt = some e → e < now →
      (resolveFull none table now sc).1.rsp.found = true ∧
      (resolveFull none table now sc).1.rsp.expired = true) := by
  have hne : (sc == "") = false := by
    have h3 : 3 ≤ sc.length := by
      have h := hsc
      unfold validateShortCode at h
      simp only [Bool.and_eq_true, decide_eq_true_eq] at h
      exact h.1.1
    rcases Bool.eq_false_or_eq_true (sc == "") with h | h
    · exfalso
      have hemp : sc = "" := by simpa using h
      rw [hemp] at h3
      simp at h3
    · exact h
  have hnf : containsSub "URL expired" "not found" = false := by decide
  have hex : containsSub "URL expired" "expired" = true := by decide
  constructor
  · intro entry e he hlt
    simp [resolveFull, domainResolveURL, hsc, storeResolveURL, he, hlt,
      domainClassify, hnf, hex, rpcClassify, hne]
  · intro row e hrow he hlt
    simp [resolveFull, domainResolveURL, hsc, storeResolveURL, hrow, he, hlt,
      domainClassify, hnf, hex, rpcClassify, hne]

/-- C1 witness: a concrete cached mapping expired at t = 999 resolved
at t = 1000 is reported found-and-expired. -/
theorem resolve_expired_strictly_before_now_witness :
    validateShortCode "abc1234" = true ∧
    (resolveFull (some c1wEntry) [] 1000 "abc1234").1.rsp.found = true ∧
    (resolveFull (some c1wEntry) [] 1000 "abc1234").1.rsp.expired = true := by
  refine ⟨by decide, ?_, ?_⟩ <;>
  · have h := (resolve_expired_strictly_before_now [] 1000 "abc1234" (by decide)).1
      c1wEntry 999 rfl (by decide)
    simp [h.1, h.2]

/-- C5 counterexample: on a cache miss the resolver writes the mapping
through with a flat 24-hour TTL (86400 s) even when the mapping expires
3600 s later, whereas the claimed rule `min(24h, expires_at − now)`
gives 3600 s. -/
theorem resolver_writethrough_ttl_is_not_min :
    (storeResolveURL none [c5Row] 1000000 "abc1234").2 =
      .set (cacheEntryOfURL c5Row) 86400 ∧
    min (86400 : Int) (1003600 - 1000000) = 3600 ∧ (86400 : Int) ≠ 3600 :=
  ⟨by decide, by decide, by decide⟩

/-- C5 amended: on a cache miss that finds a non-expired active
mapping, the resolver writes the projection through with a fixed TTL of
24 hours (86400 s) regardless of `expires_at`; only the Shortener's
creation path uses TTL = `min(24h, expires_at − now)` (24 h when
`expires_at` is absent). -/
theorem resolver_writethrough_fixed_ttl :
    (∀ (table : List URLMapping) (now : Int) (sc : String) (row : URLMapping),
      getURLByShortCode table sc = some row → isExpired now row = false →
      (storeResolveURL none table now sc).2 = .set (cacheEntryOfURL row) 86400) ∧
    (∀ now e : Int, shortenCacheTTL now (some e) = min 86400 (e - now)) ∧
    (∀ now : Int, shortenCacheTTL now none = 86400) := by
  refine ⟨?_, ?_, fun now => rfl⟩
  · intro table now sc row hrow hexp
    cases he : row.expiresAt with
    | none => simp [storeResolveURL, hrow, he]
    | some e =>
      have hnl : ¬ e < now := by
        unfold isExpired at hexp
        rw [he] at hexp
        simpa using hexp
      simp [storeResolveURL, hrow, he, hnl]
  · intro now e
    unfold shortenCacheTTL
    simp only []
    split <;> omega

/-- C5 witness: the concrete miss-path resolve at t = 1000000 of a row
expiring at t = 1003600 writes the cache with TTL 86400. -/
theorem resolver_writethrough_fixed_ttl_witness :
    getURLByShortCode [c5Row] "abc1234" = some c5Row ∧
    isExpired 1000000 c5Row = false ∧
    (storeResolveURL none [c5Row] 1000000 "abc1234").2 =
      .set (cacheEntryOfURL c5Row) 86400 :=
  ⟨by decide, by decide,
    resolver_writethrough_fixed_ttl.1 [c5Row] 1000000 "abc1234" c5Row (by decide) (by decide)⟩

/-- C10: the Resolver's RPC handler never propagates an error to the
transport: for every short code and every outcome of the domain service
(including internal store failures carried as `Except.error`), and for
the full composed pipeline on any state, the handler's returned Go
error is nil; failures are reported in-band in the response fields. -/
theorem resolve_handler_never_returns_error :
    (∀ (sc : String) (d : Except String RedirectResult), (rpcClassify sc d).err = none) ∧
    (∀ (cache : Option CacheEntry) (table : List URLMapping) (now : Int) (sc : String),
      (resolveFull cache table now sc).1.err = none) := by
  have h : ∀ (sc : String) (d : Except String RedirectResult),
      (rpcClassify sc d).err = none := by
    intro sc d
    unfold rpcClassify
    split
    · rfl
    · cases d <;> rfl
  exact ⟨h, fun cache table now sc => h sc _⟩

/-- C2: `UpdateURL` reports success with the new long URL and
invalidates the cache entry, but the database write is unimplemented in
the source (`TODO: Implement database update operation`), so the table
is unchanged and a subsequent Resolve — after the cache invalidation
landed, i.e. within any cache-invalidation window — still returns the
old long URL, not the new one. -/
theorem update_does_not_persist_new_long_url :
    ((updateURL none [c2Row] 10 c2Req).result.toOption.map (fun u => u.longURL) =
      some "https://example.com/new") ∧
    (updateURL none [c2Row] 10 c2Req).cache = none ∧
    (updateURL none [c2Row] 10 c2Req).table = [c2Row] ∧
    (resolveFull none (updateURL none [c2Row] 10 c2Req).table 10 "abc1234").1.rsp.longUrl =
      "https://example.com/old" ∧
    ("https://example.com/old" : String) ≠ "https://example.com/new" :=
  ⟨by decide, by decide, by decide, by decide, by decide⟩

/-- C3 counterexample: a soft-deleted mapping holding the requested
alias is invisible to the availability check (`GetURLByShortCode`
filters `is_active = true`), so the insert hits the unique constraint
and Shorten fails with the generic save error, not `AliasTaken`
(`ErrCustomAliasUsed`). -/
theorem shorten_softdeleted_alias_is_not_aliastaken :
    c3Row.isActive = false ∧ c3Row.shortCode = c3Req.customAlias ∧
    (shortenURL [c3Row] 0 [] c3Req).result = .error .saveFailed ∧
    DomainErr.saveFailed ≠ DomainErr.customAliasUsed :=
  ⟨by decide, by decide, by decide, by decide⟩

/-- C3 amended: with a custom alias, Shorten validates it against the
3–10 alphanumeric pattern (failing with the invalid-short-code error
otherwise); an ACTIVE mapping with that code makes it fail with
`AliasTaken`; a code held only by soft-deleted mappings passes the
availability check and the insert then fails on the unique constraint
with a generic save error, not `AliasTaken`. -/
theorem shorten_custom_alias_validation_and_conflict (table : List URLMapping)
    (now : Int) (draws : List (List Nat)) (req : CreateURLRequest)
    (halias : req.customAlias ≠ "") (hurl : validateURL req.longURL = true) :
    (validateShortCode req.customAlias = false →
      (shortenURL table now draws req).result = .error .invalidShortCode) ∧
    (validateShortCode req.customAlias = true →
      (∃ r ∈ table, r.shortCode = req.customAlias ∧ r.isActive = true) →
      (shortenURL table now draws req).result = .error .customAliasUsed) ∧
    (validateShortCode req.customAlias = true →
      (∀ r ∈ table, r.shortCode = req.customAlias → r.isActive = false) →
      (∃ r ∈ table, r.shortCode = req.customAlias) →
      (shortenURL table now draws req).result = .error .saveFailed) := by
  have hb : (req.customAlias == "") = false := by
    simpa using halias
  refine ⟨?_, ?_, ?_⟩
  · intro hbad
    simp [shortenURL, hurl, hb, hbad, halias]
  · intro hok hex
    have hfind : ∃ r, getURLByShortCode table req.customAlias = some r := by
      obtain ⟨r, hr, hsc, hac⟩ := hex
      have hsome :
          (List.find? (fun x => x.shortCode == req.customAlias && x.isActive) table).isSome := by
        rw [List.find?_isSome]
        exact ⟨r, hr, by simp [hsc, hac]⟩
      obtain ⟨v, hv⟩ := Option.isSome_iff_exists.mp hsome
      exact ⟨v, hv⟩
    obtain ⟨r, hr⟩ := hfind
    simp [shortenURL, hurl, hb, hok, hr, halias]
  · intro hok hdead hex
    have hfind : getURLByShortCode table req.customAlias = none := by
      unfold getURLByShortCode
      rw [List.find?_eq_none]
      intro x hx
      simp only [Bool.and_eq_true, beq_iff_eq, not_and]
      intro hsc
      simp [hdead x hx hsc]
    have hany : table.any (fun r => r.shortCode == req.customAlias) = true := by
      rw [List.any_eq_true]
      obtain ⟨r, hr, hsc⟩ := hex
      exact ⟨r, hr, by simp [hsc]⟩
    simp [shortenURL, hurl, hb, hok, hfind, createURL, hany, halias, hex]

/-- C3 witness: the concrete soft-deleted-alias request exercises the
third branch of the amended theorem. -/
theorem shorten_custom_alias_validation_and_conflict_witness :
    (c3Req.customAlias ≠ "" ∧ validateURL c3Req.longURL = true ∧
      validateShortCode c3Req.customAlias = true) ∧
    (shortenURL [c3Row] 0 [] c3Req).result = .error .saveFailed := by
  refine ⟨⟨by decide, by decide, by decide⟩, ?_⟩
  exact (shorten_custom_alias_validation_and_conflict [c3Row] 0 [] c3Req
      (by decide) (by decide)).2.2 (by decide)
    (by intro r hr hsc
        simp only [List.mem_singleton] at hr
        subst hr
        rfl)
    ⟨c3Row, by simp, by decide⟩

/-- C6 counterexample: a ListByOwner request with
`sort_by = click_count, sort_order = desc` returns the owner's mappings
with click counts `[5, 100]` — not in descending click-count order —
because the query always orders by `created_at DESC`. -/
theorem listByOwner_ignores_requested_sort :
    c6Req.sortBy = "click_count" ∧ c6Req.sortOrder = "desc" ∧
    (getUserURLs [c6RowA, c6RowB] c6Req).urls.map (fun r => r.clickCount) = [5, 100] ∧
    ¬ List.Pairwise (fun a b : Int => b ≤ a) [(5 : Int), 100] :=
  ⟨rfl, rfl, by decide, by decide⟩

/-- C6 amended: the page ListByOwner returns is invariant under the
requested `sort_by` and `sort_order` (the SQL query ignores them) and
is always ordered by `created_at` descending. -/
theorem listByOwner_always_createdAt_desc :
    (∀ (table : List URLMapping) (uid : String) (p ps : Int) (sb so sb2 so2 : String),
      getUserURLs table ⟨uid, p, ps, sb, so⟩ = getUserURLs table ⟨uid, p, ps, sb2, so2⟩) ∧
    (∀ (table : List URLMapping) (req : GetUserURLsRequest),
      (getUserURLs table req).urls.Pairwise createdDesc) := by
  constructor
  · intro table uid p ps sb so sb2 so2
    rfl
  · intro table req
    have htot : IsTotal URLMapping createdDesc :=
      ⟨fun a b => le_total b.createdAt a.createdAt⟩
    have htrans : IsTrans URLMapping createdDesc :=
      ⟨fun a b c h1 h2 => le_trans h2 h1⟩
    have base : ∀ lim off, (getURLsByUserID table req.userID lim off).Pairwise createdDesc := by
      intro lim off
      have hsorted := @List.sorted_insertionSort URLMapping createdDesc _ htot htrans
        (table.filter (fun r => r.userID == req.userID && r.isActive))
      exact hsorted.sublist ((List.take_sublist _ _).trans (List.drop_sublist _ _))
    have taken : ∀ k lim off,
        ((getURLsByUserID table req.userID lim off).take k).Pairwise createdDesc :=
      fun k lim off => (base lim off).sublist (List.take_sublist _ _)
    unfold getUserURLs
    dsimp only
    repeat' split
    all_goals first
      | exact taken _ _ _
      | exact base _ _

/-- C8: GetInfo's owner check on both paths: with an empty caller
owner id the mapping is returned (public read); with a non-empty owner
id different from the mapping's owner the result is `Unauthorized` —
for a cache hit (checked against the cached projection) and for the
primary-store path (checked against the row). -/
theorem getInfo_owner_authorization (table : List URLMapping) (now : Int) (sc : String) :
    (∀ d : CacheData, (getURL (some d) table now sc "").1 = .ok (cacheToURL sc d)) ∧
    (∀ (d : CacheData) (uid : String), uid ≠ "" → uid ≠ d.userID →
      (getURL (some d) table now sc uid).1 = .error .unauthorized) ∧
    (∀ row : URLMapping, getURLByShortCode table sc = some row →
      (getURL none table now sc "").1 = .ok row) ∧
    (∀ (row : URLMapping) (uid : String), getURLByShortCode table sc = some row →
      uid ≠ "" → uid ≠ row.userID →
      (getURL none table now sc uid).1 = .error .unauthorized) := by
  refine ⟨?_, ?_, ?_, ?_⟩
  · intro d
    simp [getURL]
  · intro d uid hne hown
    have hacc : canAccess (cacheToURL sc d) uid = false := by
      simp [canAccess, cacheToURL]
      exact fun h => hown h.symm
    simp [getURL, hne, hacc]
  · intro row hrow
    simp [getURL, hrow]
  · intro row uid hrow hne hown
    have hacc : canAccess row uid = false := by
      simp [canAccess]
      exact fun h => hown h.symm
    simp [getURL, hrow, hne, hacc]

/-- C8 witness: concrete cache-hit and store-path reads, public and
with a mismatched owner `u2`. -/
theorem getInfo_owner_authorization_witness :
    ((getURL (some c8Cache) [] 0 "abc1234" "").1 = .ok (cacheToURL "abc1234" c8Cache)) ∧
    ((getURL (some c8Cache) [] 0 "abc1234" "u2").1 = .error .unauthorized) ∧
    ((getURL none [c8Row] 0 "abc1234" "").1 = .ok c8Row) ∧
    ((getURL none [c8Row] 0 "abc1234" "u2").1 = .error .unauthorized) := by
  obtain ⟨h1, h2, h3, h4⟩ := getInfo_owner_authorization [c8Row] 0 "abc1234"
  exact ⟨(getInfo_owner_authorization [] 0 "abc1234").1 c8Cache,
    (getInfo_owner_authorization [] 0 "abc1234").2.1 c8Cache "u2" (by decide) (by decide),
    h3 c8Row (by decide), h4 c8Row "u2" (by decide) (by decide) (by decide)⟩

/-- C9: a time range matching no click records — in particular every
empty range with `end_time < start_time`, since the inclusive `BETWEEN`
then matches nothing — yields all-zero totals from the store
(`sql.ErrNoRows` branch), empty arrays from every breakdown query, and
a successful handler response with zero totals and empty arrays, never
an error. -/
theorem getURLStats_empty_range_returns_zeros (records : List ClickRecord)
    (now : Int) (req : StatsRequest) (hs : 0 < req.startTime) (he : 0 < req.endTime)
    (hnone : ∀ r ∈ records,
      clickMatches req.shortCode req.startTime req.endTime r = false) :
    (∀ (sc : String) (st en : Int) (r : ClickRecord), en < st →
      clickMatches sc st en r = false) ∧
    storeGetURLStats records req.shortCode req.startTime req.endTime =
      { shortCode := req.shortCode } ∧
    (∀ gran, storeGetTimeSeriesData records req.shortCode req.startTime
      req.endTime gran = []) ∧
    storeGetCountryStats records req.shortCode req.startTime req.endTime = [] ∧
    storeGetDeviceStats records req.shortCode req.startTime req.endTime = [] ∧
    storeGetBrowserStats records req.shortCode req.startTime req.endTime = [] ∧
    storeGetReferrerStats records req.shortCode req.startTime req.endTime = [] ∧
    handlerGetURLStats records now req = .ok { shortCode := req.shortCode } := by
  have hempty : ∀ (sc : String) (st en : Int) (r : ClickRecord), en < st →
      clickMatches sc st en r = false := by
    intro sc st en r hlt
    unfold clickMatches
    simp only [Bool.and_eq_false_iff, decide_eq_false_iff_not, not_le]
    omega
  have hfil : records.filter (clickMatches req.shortCode req.startTime req.endTime) = [] := by
    rw [List.filter_eq_nil_iff]
    intro a ha
    simp [hnone a ha]
  refine ⟨hempty, ?_, ?_, ?_, ?_, ?_, ?_, ?_⟩
  · simp [storeGetURLStats, hfil]
  · intro gran
    simp [storeGetTimeSeriesData, hfil]
  · simp [storeGetCountryStats, hfil, dimensionBreakdown]
  · simp [storeGetDeviceStats, hfil, dimensionBreakdown]
  · simp [storeGetBrowserStats, hfil, dimensionBreakdown]
  · simp [storeGetReferrerStats, hfil, dimensionBreakdown]
  · simp [handlerGetURLStats, serviceGetURLStats, storeGetURLStats, hfil, hs, he]

/-- C9 witness: a concrete store holding one click, queried with the
empty range [100, 50]. -/
theorem getURLStats_empty_range_returns_zeros_witness :
    (0 < c9Req.startTime ∧ 0 < c9Req.endTime ∧
      ∀ r ∈ [c9Record],
        clickMatches c9Req.shortCode c9Req.startTime c9Req.endTime r = false) ∧
    c9Req.endTime < c9Req.startTime ∧
    handlerGetURLStats [c9Record] 1000 c9Req = .ok { shortCode := "abc1234" } := by
  refine ⟨⟨by decide, by decide, by decide⟩, by decide, ?_⟩
  exact (getURLStats_empty_range_returns_zeros [c9Record] 1000 c9Req (by decide)
    (by decide) (by decide)).2.2.2.2.2.2.2

theorem charToSix_sixToChar : ∀ n : Fin 64, charToSix (sixToChar n.val) = some n.val := by
  decide

theorem charToSix_sixToChar_of_lt {n : Nat} (h : n < 64) :
    charToSix (sixToChar n) = some n := charToSix_sixToChar ⟨n, h⟩

theorem sixToChar_ne_special (n : Nat) :
    sixToChar n ≠ '"' ∧ sixToChar n ≠ '\\' ∧ sixToChar n ≠ '=' := by
  by_cases h : n < 64
  · exact (by decide : ∀ m : Fin 64, sixToChar m.val ≠ '"' ∧ sixToChar m.val ≠ '\\' ∧
      sixToChar m.val ≠ '=') ⟨n, h⟩
  · have hlen : b64Alphabet.toList.length = 64 := by decide
    have hd : b64Alphabet.toList.getD n 'A' = 'A' := by
      apply List.getD_eq_default
      omega
    unfold sixToChar
    rw [hd]
    refine ⟨by decide, by decide, by decide⟩

theorem char_ofNat_eq (x : Nat) (a : Char) (h : x = a.toNat) : Char.ofNat x = a := by
  rw [h, Char.ofNat_toNat]

theorem b64_roundtrip : ∀ (l : List Char), (∀ c ∈ l, c.toNat < 256) →
    b64decode (b64encode l) = some l
  | [], _ => rfl
  | [a], h => by
    have ha : a.toNat < 256 := h a (by simp)
    have h0 : a.toNat / 4 < 64 := by omega
    have h1 : a.toNat % 4 * 16 < 64 := by omega
    simp [b64encode, b64decode, charToSix_sixToChar_of_lt h0,
      charToSix_sixToChar_of_lt h1]
    exact char_ofNat_eq _ _ (by omega)
  | [a, b], h => by
    have ha : a.toNat < 256 := h a (by simp)
    have hb : b.toNat < 256 := h b (by simp)
    have h0 : a.toNat / 4 < 64 := by omega
    have h1 : a.toNat % 4 * 16 + b.toNat / 16 < 64 := by omega
    have h2 : b.toNat % 16 * 4 < 64 := by omega
    have hne2 : sixToChar (b.toNat % 16 * 4) ≠ '=' := (sixToChar_ne_special _).2.2
    simp [b64encode, b64decode, charToSix_sixToChar_of_lt h0,
      charToSix_sixToChar_of_lt h1, charToSix_sixToChar_of_lt h2, hne2]
    and_intros <;> exact char_ofNat_eq _ _ (by omega)
  | a :: b :: c :: rest, h => by
    have ha : a.toNat < 256 := h a (by simp)
    have hb : b.toNat < 256 := h b (by simp)
    have hc : c.toNat < 256 := h c (by simp)
    have h0 : a.toNat / 4 < 64 := by omega
    have h1 : a.toNat % 4 * 16 + b.toNat / 16 < 64 := by omega
    have h2 : b.toNat % 16 * 4 + c.toNat / 64 < 64 := by omega
    have h3 : c.toNat % 64 < 64 := by omega
    have hne2 : sixToChar (b.toNat % 16 * 4 + c.toNat / 64) ≠ '=' :=
      (sixToChar_ne_special _).2.2
    have hne3 : sixToChar (c.toNat % 64) ≠ '=' := (sixToChar_ne_special _).2.2
    have ih := b64_roundtrip rest (fun x hx => h x (by simp [hx]))
    simp [b64encode, b64decode, charToSix_sixToChar_of_lt h0,
      charToSix_sixToChar_of_lt h1, charToSix_sixToChar_of_lt h2,
      charToSix_sixToChar_of_lt h3, hne2, hne3, ih]
    and_intros <;> exact char_ofNat_eq _ _ (by omega)

theorem b64encode_chars : ∀ (l : List Char), ∀ c ∈ b64encode l, c ≠ '"' ∧ c ≠ '\\'
  | [] => by simp [b64encode]
  | [a] => by
    intro c hc
    have hs := sixToChar_ne_special
    have he : ('=' : Char) ≠ '"' ∧ ('=' : Char) ≠ '\\' := ⟨by decide, by decide⟩
    simp only [b64encode, List.mem_cons, List.not_mem_nil, or_false] at hc
    rcases hc with rfl | rfl | rfl | rfl <;>
      first
      | exact ⟨(hs _).1, (hs _).2.1⟩
      | exact he
  | [a, b] => by
    intro c hc
    have hs := sixToChar_ne_special
    have he : ('=' : Char) ≠ '"' ∧ ('=' : Char) ≠ '\\' := ⟨by decide, by decide⟩
    simp only [b64encode, List.mem_cons, List.not_mem_nil, or_false] at hc
    rcases hc with rfl | rfl | rfl | rfl <;>
      first
      | exact ⟨(hs _).1, (hs _).2.1⟩
      | exact he
  | a :: b :: d :: rest => by
    intro c hc
    have hs := sixToChar_ne_special
    simp only [b64encode, List.mem_cons] at hc
    rcases hc with rfl | rfl | rfl | rfl | h
    · exact ⟨(hs _).1, (hs _).2.1⟩
    · exact ⟨(hs _).1, (hs _).2.1⟩
    · exact ⟨(hs _).1, (hs _).2.1⟩
    · exact ⟨(hs _).1, (hs _).2.1⟩
    · exact b64encode_chars rest c h

theorem jsonStringContent_append : ∀ (s : List Char),
    (∀ c ∈ s, c ≠ '"' ∧ c ≠ '\\') → jsonStringContent (s ++ ['"']) = some s
  | [], _ => by simp [jsonStringContent]
  | c :: cs, h => by
    have hc := h c (by simp)
    have ih := jsonStringContent_append cs (fun x hx => h x (by simp [hx]))
    simp [jsonStringContent, hc.1, hc.2, ih]

theorem handlerJsonData_wrapped (body : List Char) (hbytes : ∀ c ∈ body, c.toNat < 256) :
    handlerJsonData (('"' :: b64encode body) ++ ['"']) = some body := by
  have hunq : jsonUnquote ('"' :: (b64encode body ++ ['"'])) =
      some (b64encode body) := by
    simp [jsonUnquote, jsonStringContent_append (b64encode body) (b64encode_chars body)]
  unfold handlerJsonData
  rw [List.cons_append, List.head?_cons, if_pos rfl, hunq]
  exact b64_roundtrip body hbytes

theorem handlerJsonData_raw (body : List Char) (hq : body.head? ≠ some '"') :
    handlerJsonData body = some body := by
  unfold handlerJsonData
  rw [if_neg hq]

/-- C7: the `url.clicked` ingester accepts both encodings and treats
them identically, and never fails a delivery: (i) the handler's
returned error is nil for every message body; (ii) for every raw
payload not starting with a quote character, the base64-wrapped form
(a JSON string of the standard base64 encoding) decodes to the same
JSON bytes, so both forms yield the identical parsed event and handler
outcome; (iii) a body whose detection/decoding stage fails, and
(iv) a body whose JSON payload fails to parse, are discarded with the
handler still returning without error rather than being reprocessed. -/
theorem clicked_ingester_accepts_both_encodings (now : Int) :
    (∀ body : List Char, (subscribeHandleClick now body).err = none) ∧
    (∀ body : List Char, body ≠ [] → body.head? ≠ some '"' →
      (∀ c ∈ body, c.toNat < 256) →
      handlerJsonData (('"' :: b64encode body) ++ ['"']) = some body ∧
      handlerJsonData body = some body ∧
      subscribeHandleClick now (('"' :: b64encode body) ++ ['"']) =
        subscribeHandleClick now body) ∧
    (∀ body : List Char, handlerJsonData body = none →
      (subscribeHandleClick now body).action = .discarded) ∧
    (∀ (body jd : List Char), handlerJsonData body = some jd →
      jsonParseFlatObj jd = none →
      (subscribeHandleClick now body).action = .discarded) := by
  refine ⟨?_, ?_, ?_, ?_⟩
  · intro body
    unfold subscribeHandleClick
    cases h : handlerJsonData body with
    | none => rfl
    | some jd =>
      dsimp only
      cases h2 : jsonParseFlatObj jd with
      | none => rfl
      | some m => rfl
  · intro body hne hq hbytes
    have hw := handlerJsonData_wrapped body hbytes
    have hr := handlerJsonData_raw body hq
    refine ⟨hw, hr, ?_⟩
    unfold subscribeHandleClick
    rw [hw, hr]
  · intro body h
    unfold subscribeHandleClick
    rw [h]
  · intro body jd h h2
    unfold subscribeHandleClick
    rw [h]
    dsimp only
    rw [h2]

/-- C7 witness: a concrete raw click-event body and its base64-wrapped
form decode to the same payload and the same handler outcome. -/
theorem clicked_ingester_accepts_both_encodings_witness :
    (c7Body ≠ [] ∧ c7Body.head? ≠ some '"' ∧ ∀ c ∈ c7Body, c.toNat < 256) ∧
    handlerJsonData (('"' :: b64encode c7Body) ++ ['"']) = some c7Body ∧
    handlerJsonData c7Body = some c7Body ∧
    subscribeHandleClick 0 (('"' :: b64encode c7Body) ++ ['"']) =
      subscribeHandleClick 0 c7Body := by
  refine ⟨⟨by decide, by decide, by decide⟩, ?_, ?_, ?_⟩ <;>
  · have h := (clicked_ingester_accepts_both_encodings 0).2.1 c7Body
      (by decide) (by decide) (by decide)
    first
      | exact h.1
      | exact h.2.1
      | exact h.2.2

end UrlShort
